import Mathlib

/-!
Verification of the CCLI command dispatcher core (tokenizer, alias
resolution, dispatch, history handling), shallowly embedded from
src/executor.py, src/environment.py, src/commands.py and src/gui.py.
Output callbacks are modelled as accumulated lists of (text, styleTag)
pairs; Python dictionaries are modelled as insertion-ordered association
lists; a Python exception escaping a function is modelled by an explicit
crash constructor carrying the exception message.
-/

/-- Python str.lower restricted to the ASCII range, as used on head tokens. -/
def pyLower (s : String) : String :=
  String.mk (s.data.map Char.toLower)

/-- The characters Python str.strip removes by default (ASCII whitespace). -/
def isPyWhitespace (c : Char) : Bool :=
  c = ' ' || c = '\t' || c = '\n' || c = '\r' || c = '\x0b' || c = '\x0c'

/-- Python str.strip: drop whitespace from both ends. -/
def pystrip (s : String) : String :=
  String.mk (((s.data.dropWhile isPyWhitespace).reverse.dropWhile isPyWhitespace).reverse)

/-- Python " ".join(args). -/
def joinSpace : List String → String
  | [] => ""
  | [s] => s
  | s :: rest => s ++ " " ++ joinSpace rest

/-- Lookup in a Python dict modelled as an insertion-ordered association list. -/
def lookupAssoc (m : List (String × String)) (k : String) : Option String :=
  match m with
  | [] => none
  | (k2, v) :: rest => if k2 = k then some v else lookupAssoc rest k

/-- Python dict assignment d[k] = v: replace in place if the key exists,
otherwise append at the end (insertion order preserved). -/
def dictSet (m : List (String × String)) (k v : String) : List (String × String) :=
  match m with
  | [] => [(k, v)]
  | (k2, v2) :: rest => if k2 = k then (k2, v) :: rest else (k2, v2) :: dictSet rest k v

/-- Session state, from CCLIEnvironment in src/environment.py. -/
structure CCLIEnvironment where
  «variables» : List (String × String)
  current_dir : String
  command_history : List String
  aliases : List (String × String)
deriving DecidableEq

/-- CCLIEnvironment.__init__ (the working directory is a parameter since the
code reads it from the operating system). -/
def init_env (cwd : String) : CCLIEnvironment :=
  { «variables» := [("PATH", "/usr/local/bin:/usr/bin:/bin")]
  , current_dir := cwd
  , command_history := []
  , aliases := [] }

/-- CCLIEnvironment.add_to_history. -/
def add_to_history (env : CCLIEnvironment) (command : String) : CCLIEnvironment :=
  { env with command_history := env.command_history ++ [command] }

/-- CCLIEnvironment.get_last_command. -/
def get_last_command (env : CCLIEnvironment) : String :=
  (env.command_history.getLast?).getD ""

/-- CCLIEnvironment.set_alias. -/
def set_alias (env : CCLIEnvironment) (name command : String) : CCLIEnvironment :=
  { env with aliases := dictSet env.aliases name command }

/-- Tokenizer loop state, from CommandExecutor.tokenize in src/executor.py:
iterate over the characters, toggling the in_quotes flag on each quote,
flushing the accumulator on a space outside quotes, appending any other
character, and flushing a non-empty accumulator at end of input. -/
def tokenizeAux : List Char → String → Bool → List String → List String
  | [], current, _, tokens =>
      if current = "" then tokens else tokens ++ [current]
  | c :: cs, current, in_quotes, tokens =>
      if c = '"' then
        tokenizeAux cs current (!in_quotes) tokens
      else if c = ' ' ∧ in_quotes = false then
        if current = "" then tokenizeAux cs "" in_quotes tokens
        else tokenizeAux cs "" in_quotes (tokens ++ [current])
      else
        tokenizeAux cs (current.push c) in_quotes tokens

/-- CommandExecutor.tokenize. -/
def tokenize (command_line : String) : List String :=
  tokenizeAux command_line.data "" false []

/-- Result of invoking one command capability: either a normal return with
the emitted (text, tag) output, the optional return value and the updated
environment, or a raised exception with its message. -/
inductive CmdResult where
  | ret : List (String × String) → Option String → CCLIEnvironment → CmdResult
  | exn : List (String × String) → String → CCLIEnvironment → CmdResult
deriving DecidableEq

/-- The environment component of a command invocation result. -/
def cmdResultEnv : CmdResult → CCLIEnvironment
  | .ret _ _ e => e
  | .exn _ _ e => e

/-- A registry of command behaviors, keyed by the name of the bound method
the dispatch table points at. -/
def Registry : Type :=
  String → List String → CCLIEnvironment → CmdResult

/-- Result of CommandExecutor.execute: a normal return (outputs, optional
result value, updated environment) or an uncaught exception. -/
inductive ExecResult where
  | ok : List (String × String) → Option String → CCLIEnvironment → ExecResult
  | crash : String → ExecResult
deriving DecidableEq

/-- The command_map dictionary of CommandExecutor.execute, as a mapping from
typed command name to the name of the Commands method it is bound to. -/
def command_map : List (String × String) :=
  [ ("help", "help"), ("echo", "echo"), ("cd", "cd"), ("pwd", "pwd")
  , ("ls", "ls"), ("dir", "ls"), ("mkdir", "mkdir"), ("rmdir", "rmdir")
  , ("touch", "touch"), ("rm", "rm"), ("del", "rm"), ("rename", "rename")
  , ("mv", "rename"), ("read", "read"), ("cat", "read"), ("type", "read")
  , ("write", "write"), ("head", "head"), ("tail", "tail"), ("tree", "tree")
  , ("date", "date"), ("history", "history"), ("last", "last")
  , ("clear", "clear"), ("cls", "clear"), ("cp", "copy"), ("copy", "copy")
  , ("find", "find"), ("search", "find"), ("size", "size"), ("wc", "wc")
  , ("grep", "grep"), ("append", "append"), ("replace", "replace")
  , ("env", "env"), ("whoami", "whoami"), ("uname", "uname")
  , ("calc", "calc"), ("sleep", "sleep"), ("alias", "alias")
  , ("diff", "diff"), ("cmp", "cmp") ]

/-- The lookup-and-invoke tail of CommandExecutor.execute (lines 83-91):
a registered command is invoked inside try/except, a raised exception is
converted to one error-tagged line, an unregistered name produces the
unknown-command diagnostic. -/
def dispatch (invoke : Registry) (env : CCLIEnvironment) (cmd : String)
    (args : List String) : ExecResult :=
  match lookupAssoc command_map cmd with
  | some fname =>
      match invoke fname args env with
      | .ret out result env2 => .ok out result env2
      | .exn out msg env2 =>
          .ok (out ++ [("Error: " ++ msg ++ "\n", "error")]) none env2
  | none =>
      .ok [("Unknown command: " ++ cmd ++ ". Type 'help' for available commands.\n", "error")]
        none env

/-- The alias branch of CommandExecutor.execute (lines 26-35): the head
token is lowercased, and when that lowercased head is a key of the alias
table the expansion is prepended to the space-joined remaining arguments
and the whole line is re-tokenized; otherwise the tokens pass unchanged. -/
def resolvedTokens (aliases : List (String × String)) (tokens : List String) : List String :=
  match tokens with
  | [] => []
  | t0 :: args =>
      match lookupAssoc aliases (pyLower t0) with
      | some alias_cmd => tokenize (alias_cmd ++ " " ++ joinSpace args)
      | none => t0 :: args

/-- CommandExecutor.execute. Indexing the re-tokenized alias expansion with
tokens[0] when that list is empty raises IndexError in Python, modelled by
the crash constructor with the IndexError message. -/
def execute (invoke : Registry) (env : CCLIEnvironment) (command_line : String) : ExecResult :=
  if pystrip command_line = "" then .ok [] none env
  else if tokenize command_line = [] then .ok [] none env
  else
    match resolvedTokens env.aliases (tokenize command_line) with
    | [] => .crash "list index out of range"
    | t0 :: args => dispatch invoke env (pyLower t0) args

/-- Commands.echo from src/commands.py. -/
def commands_echo (env : CCLIEnvironment) (args : List String) : CmdResult :=
  .ret [(joinSpace args ++ "\n", "output")] none env

/-- Commands.alias from src/commands.py: no arguments lists the aliases,
one argument shows one alias, two or more create an alias. -/
def commands_alias (env : CCLIEnvironment) (args : List String) : CmdResult :=
  match args with
  | [] =>
      if env.aliases = [] then .ret [("No aliases defined\n", "info")] none env
      else .ret (env.aliases.map (fun p => (p.1 ++ "='" ++ p.2 ++ "'\n", "output"))) none env
  | [a] =>
      match lookupAssoc env.aliases a with
      | some command =>
          if command = "" then .ret [("Alias not found: " ++ a ++ "\n", "info")] none env
          else .ret [(a ++ "='" ++ command ++ "'\n", "output")] none env
      | none => .ret [("Alias not found: " ++ a ++ "\n", "info")] none env
  | name :: rest =>
      .ret [("Alias created: " ++ name ++ "='" ++ joinSpace rest ++ "'\n", "success")]
        none (set_alias env name (joinSpace rest))

/-- Commands.last from src/commands.py: returns the previous history entry
when it is non-empty and not itself the last command. -/
def commands_last (env : CCLIEnvironment) : Option String × List (String × String) :=
  if get_last_command env ≠ "" ∧ get_last_command env ≠ "last" then
    (some (get_last_command env), [("Executing: " ++ get_last_command env ++ "\n", "info")])
  else
    (none, [("No previous command to execute.\n", "info")])

/-- A registry in which every command returns nothing and leaves the
environment unchanged. -/
def invoke0 : Registry :=
  fun _ _ env => .ret [] none env

/-- A registry realizing the echo command as written in src/commands.py and
leaving every other command inert. -/
def invokeEcho : Registry :=
  fun fname args env =>
    if fname = "echo" then commands_echo env args else .ret [] none env

/-- A registry realizing the alias command as written in src/commands.py and
leaving every other command inert. -/
def invokeAlias : Registry :=
  fun fname args env =>
    if fname = "alias" then commands_alias env args else .ret [] none env

/-- A registry in which every command raises an exception with message boom. -/
def invokeBoom : Registry :=
  fun _ _ env => .exn [] "boom" env

/-- Reference tokenizer following the wording of section 4.1 of the spec,
for the refinement claim C2: scan left to right with a boolean in-quotes
flag toggled by each quote character, a space outside quotes terminates the
current token (emitted only if non-empty, the space discarded), quote
characters are consumed and never emitted, every other character is
appended to the accumulator, and a non-empty accumulator is emitted at end
of input. Tokens are produced directly in output order rather than through
an accumulated token list. -/
def tokenizeSpecAux : Bool → String → List Char → List String
  | _, acc, [] => if acc = "" then [] else [acc]
  | inq, acc, c :: cs =>
      if c = '"' then tokenizeSpecAux (!inq) acc cs
      else if c = ' ' ∧ inq = false then
        (if acc = "" then [] else [acc]) ++ tokenizeSpecAux inq "" cs
      else tokenizeSpecAux inq (acc.push c) cs

/-- Reference tokenizer of section 4.1 of the spec, top level. -/
def tokenizeSpec (line : String) : List String :=
  tokenizeSpecAux false "" line.data

/-- Tokenizer state predicate for strings made only of spaces and quotes in
which every space character is met while the in-quotes flag is unset. -/
def spacesOutsideQuotes : List Char → Bool → Bool
  | [], _ => true
  | c :: cs, inq =>
      if c = '"' then spacesOutsideQuotes cs (!inq)
      else if c = ' ' then inq = false ∧ spacesOutsideQuotes cs inq = true
      else false

/-- The welcome banner of CCLIGUI.display_welcome, emitted with the info tag. -/
def welcome_output : List (String × String) :=
  [("Welcome to CCLI - Custom Command Line Interface\n\nType 'help' for available commands or 'exit' to quit.\n\n", "info")]

/-- The prompt echo of CCLIGUI.handle_command lines 142-144: the prompt
marker and the stripped command line are displayed before execution. -/
def promptOut (command : String) : List (String × String) :=
  [("CCLI> ", "prompt"), (command ++ "\n", "output")]

/-- Observable outcome of one CCLIGUI.handle_command call: the session
state afterwards, the displayed (text, tag) pairs, whether the window was
closed, whether the display was cleared, and the message of an exception
escaping the handler if one was raised. -/
structure HandleResult where
  env : CCLIEnvironment
  outputs : List (String × String)
  exited : Bool
  cleared : Bool
  crashed : Option String
deriving DecidableEq

/-- CCLIGUI.handle_command lines 167-173: run the executor on the command
recorded in history and react to the CLEAR sentinel; an exception escaping
execute leaves the already-updated environment in place. -/
def afterHistory (invoke : Registry) (env1 : CCLIEnvironment) (command : String)
    (outs : List (String × String)) : HandleResult :=
  match execute invoke env1 command with
  | .ok out2 result env2 =>
      if result = some "CLEAR" then
        { env := env2, outputs := outs ++ out2 ++ welcome_output
        , exited := false, cleared := true, crashed := none }
      else
        { env := env2, outputs := outs ++ out2
        , exited := false, cleared := false, crashed := none }
  | .crash m =>
      { env := env1, outputs := outs, exited := false, cleared := false, crashed := some m }

/-- CCLIGUI.handle_command lines 158-161: when the replay command returned
a previous line, that line replaces the typed command. -/
def replayCmd (command : String) : Option String → String
  | some c => c
  | none => command

/-- CCLIGUI.handle_command lines 157-168: the last special form substitutes
the previous history entry, then the (possibly substituted) command is
appended to history and executed. -/
def runCommand (invoke : Registry) (env : CCLIEnvironment) (command : String) : HandleResult :=
  if pyLower command = "last" then
    afterHistory invoke (add_to_history env (replayCmd command (commands_last env).1))
      (replayCmd command (commands_last env).1)
      (promptOut command ++ (commands_last env).2)
  else
    afterHistory invoke (add_to_history env command) command (promptOut command)

/-- CCLIGUI.handle_command from src/gui.py: the typed line is stripped,
empty input is ignored, exit closes the window, clear and cls reset the
display without touching history, and every other line goes through the
last-replay substitution, the history append and the executor. -/
def handle_command (invoke : Registry) (env : CCLIEnvironment) (typed : String) : HandleResult :=
  if pystrip typed = "" then
    { env := env, outputs := [], exited := false, cleared := false, crashed := none }
  else if pyLower (pystrip typed) = "exit" then
    { env := env, outputs := promptOut (pystrip typed)
    , exited := true, cleared := false, crashed := none }
  else if pyLower (pystrip typed) = "clear" ∨ pyLower (pystrip typed) = "cls" then
    { env := env, outputs := promptOut (pystrip typed) ++ welcome_output
    , exited := false, cleared := true, crashed := none }
  else
    runCommand invoke env (pystrip typed)

theorem string_push_data (s : String) (c : Char) : (s.push c).data = s.data ++ [c] := rfl

theorem tokenizeAux_eq_specAux :
    ∀ (cs : List Char) (cur : String) (inq : Bool) (toks : List String),
      tokenizeAux cs cur inq toks = toks ++ tokenizeSpecAux inq cur cs := by
  intro cs
  induction cs with
  | nil =>
    intro cur inq toks
    by_cases h : cur = "" <;> simp [tokenizeAux, tokenizeSpecAux, h]
  | cons c cs ih =>
    intro cur inq toks
    by_cases hq : c = '"'
    · simp [tokenizeAux, tokenizeSpecAux, hq, ih]
    · by_cases hs : c = ' ' ∧ inq = false
      · by_cases hc : cur = ""
        · simp [tokenizeAux, tokenizeSpecAux, hq, hs, hc, ih]
        · simp [tokenizeAux, tokenizeSpecAux, hq, hs, hc, ih]
      · simp [tokenizeAux, tokenizeSpecAux, hq, hs, ih]

theorem tokenizeAux_accum (cs : List Char) (cur : String) (inq : Bool) (toks : List String) :
    tokenizeAux cs cur inq toks = toks ++ tokenizeAux cs cur inq [] := by
  rw [tokenizeAux_eq_specAux, tokenizeAux_eq_specAux]
  simp

theorem tokenizeAux_sound :
    ∀ (cs : List Char) (cur : String) (inq : Bool) (toks : List String),
      (∀ t ∈ toks, t ≠ "" ∧ '"' ∉ t.data) → '"' ∉ cur.data →
      ∀ t ∈ tokenizeAux cs cur inq toks, t ≠ "" ∧ '"' ∉ t.data := by
  intro cs
  induction cs with
  | nil =>
    intro cur inq toks htoks hcur t ht
    by_cases hc : cur = ""
    · simp only [tokenizeAux, if_pos hc] at ht
      exact htoks t ht
    · simp only [tokenizeAux, if_neg hc] at ht
      rcases List.mem_append.mp ht with h | h
      · exact htoks t h
      · have := List.mem_singleton.mp h
        subst this
        exact ⟨hc, hcur⟩
  | cons c cs ih =>
    intro cur inq toks htoks hcur t ht
    simp only [tokenizeAux] at ht
    by_cases hq : c = '"'
    · rw [if_pos hq] at ht
      exact ih cur (!inq) toks htoks hcur t ht
    · rw [if_neg hq] at ht
      by_cases hs : c = ' ' ∧ inq = false
      · rw [if_pos hs] at ht
        by_cases hc : cur = ""
        · rw [if_pos hc] at ht
          exact ih "" inq toks htoks (by decide) t ht
        · rw [if_neg hc] at ht
          refine ih "" inq (toks ++ [cur]) ?_ (by decide) t ht
          intro u hu
          rcases List.mem_append.mp hu with hu | hu
          · exact htoks u hu
          · have := List.mem_singleton.mp hu
            subst this
            exact ⟨hc, hcur⟩
      · rw [if_neg hs] at ht
        have hpush : '"' ∉ (cur.push c).data := by
          rw [string_push_data]
          simp only [List.mem_append, List.mem_singleton]
          rintro (h | h)
          · exact hcur h
          · exact hq h.symm
        exact ih (cur.push c) inq toks htoks hpush t ht

theorem tokenizeAux_spacesOutsideQuotes :
    ∀ (cs : List Char) (inq : Bool) (toks : List String),
      spacesOutsideQuotes cs inq = true → tokenizeAux cs "" inq toks = toks := by
  intro cs
  induction cs with
  | nil =>
    intro inq toks _
    simp [tokenizeAux]
  | cons c cs ih =>
    intro inq toks h
    simp only [spacesOutsideQuotes] at h
    by_cases hq : c = '"'
    · rw [if_pos hq] at h
      simp only [tokenizeAux, if_pos hq]
      exact ih (!inq) toks h
    · rw [if_neg hq] at h
      by_cases hsp : c = ' '
      · rw [if_pos hsp] at h
        have h2 := of_decide_eq_true h
        simp only [tokenizeAux, if_neg hq, if_pos (And.intro hsp h2.1)]
        exact ih inq toks h2.2
      · rw [if_neg hsp] at h
        exact absurd h (by simp)

theorem tokenizeAux_space_append :
    ∀ (xs : List Char), '"' ∉ xs →
      ∀ (ys : List Char) (cur : String) (toks : List String),
        tokenizeAux (xs ++ ' ' :: ys) cur false toks =
          tokenizeAux ys "" false (tokenizeAux xs cur false toks) := by
  intro xs
  induction xs with
  | nil =>
    intro _ ys cur toks
    by_cases hc : cur = "" <;>
      simp [tokenizeAux, hc]
  | cons x xs ih =>
    intro hq ys cur toks
    have hx : ¬(x = '"') := fun h => hq (h ▸ List.mem_cons_self x xs)
    have hxs : '"' ∉ xs := fun h => hq (List.mem_cons_of_mem x h)
    simp only [List.cons_append]
    rw [tokenizeAux, tokenizeAux, if_neg hx, if_neg hx]
    by_cases hsp : x = ' '
    · rw [if_pos (And.intro hsp rfl), if_pos (And.intro hsp rfl)]
      by_cases hc : cur = ""
      · rw [if_pos hc, if_pos hc]
        exact ih hxs ys "" toks
      · rw [if_neg hc, if_neg hc]
        exact ih hxs ys "" (toks ++ [cur])
    · have hcond : ¬(x = ' ' ∧ (false : Bool) = false) := fun h => hsp h.1
      rw [if_neg hcond, if_neg hcond]
      exact ih hxs ys (cur.push x) toks

theorem string_data_append (s t : String) : (s ++ t).data = s.data ++ t.data := by
  cases s
  cases t
  rfl

theorem tokenize_append_space_quotefree (xs : String) (ys : String) (hq : '"' ∉ xs.data) :
    tokenize (xs ++ " " ++ ys) = tokenize xs ++ tokenize ys := by
  have hone : (" " : String).data = [' '] := by decide
  have hdata : (xs ++ " " ++ ys).data = xs.data ++ ' ' :: ys.data := by
    rw [string_data_append, string_data_append, hone]
    simp
  unfold tokenize
  rw [hdata, tokenizeAux_space_append xs.data hq ys.data "" []]
  rw [tokenizeAux_accum]

theorem tokenize_joinSpace_quotefree :
    ∀ (args : List String), (∀ a ∈ args, '"' ∉ a.data) →
      tokenize (joinSpace args) = (args.map tokenize).flatten := by
  intro args
  induction args with
  | nil =>
    intro _
    decide
  | cons a rest ih =>
    intro h
    have ha : '"' ∉ a.data := h a (List.mem_cons_self a rest)
    have hrest : ∀ b ∈ rest, '"' ∉ b.data := fun b hb => h b (List.mem_cons_of_mem a hb)
    cases rest with
    | nil => simp [joinSpace]
    | cons b rest2 =>
      have hjoin : joinSpace (a :: b :: rest2) = a ++ " " ++ joinSpace (b :: rest2) := rfl
      rw [hjoin, tokenize_append_space_quotefree a (joinSpace (b :: rest2)) ha, ih hrest]
      simp

theorem dispatch_ok_history (invoke : Registry)
    (hinv : ∀ f a e, (cmdResultEnv (invoke f a e)).command_history = e.command_history)
    (env : CCLIEnvironment) (cmd : String) (args : List String)
    (out : List (String × String)) (r : Option String) (env2 : CCLIEnvironment)
    (h : dispatch invoke env cmd args = .ok out r env2) :
    env2.command_history = env.command_history := by
  unfold dispatch at h
  cases hm : lookupAssoc command_map cmd with
  | none =>
    simp only [hm] at h
    cases h
    rfl
  | some fname =>
    simp only [hm] at h
    cases hi : invoke fname args env with
    | ret o r2 e2 =>
      simp only [hi] at h
      cases h
      have hq := hinv fname args env
      rw [hi] at hq
      exact hq
    | exn o m e2 =>
      simp only [hi] at h
      cases h
      have hq := hinv fname args env
      rw [hi] at hq
      exact hq

theorem execute_ok_history (invoke : Registry)
    (hinv : ∀ f a e, (cmdResultEnv (invoke f a e)).command_history = e.command_history)
    (env : CCLIEnvironment) (line : String)
    (out : List (String × String)) (r : Option String) (env2 : CCLIEnvironment)
    (h : execute invoke env line = .ok out r env2) :
    env2.command_history = env.command_history := by
  unfold execute at h
  by_cases h1 : pystrip line = ""
  · rw [if_pos h1] at h
    cases h
    rfl
  · rw [if_neg h1] at h
    by_cases h2 : tokenize line = []
    · rw [if_pos h2] at h
      cases h
      rfl
    · rw [if_neg h2] at h
      cases hr : resolvedTokens env.aliases (tokenize line) with
      | nil =>
        rw [hr] at h
        cases h
      | cons t0 args =>
        rw [hr] at h
        exact dispatch_ok_history invoke hinv env (pyLower t0) args out r env2 h

/-- Claim C1: the spec guarantees that execute never raises an unhandled
fault, but the alias branch indexes the re-tokenized expansion with no
emptiness guard. The alias command can store the expansion consisting of a
single space (first conjunct, starting from a fresh environment), and
dispatching that alias then re-tokenizes to the empty list and raises an
uncaught IndexError (second conjunct), modelled by the crash result. -/
theorem c1_crash_on_empty_alias_expansion :
    execute invokeAlias (init_env "/home/user") "alias x \" \"" =
      .ok [("Alias created: x=' '\n", "success")] none
        { init_env "/home/user" with aliases := [("x", " ")] }
    ∧ execute invokeAlias { init_env "/home/user" with aliases := [("x", " ")] } "x" =
      .crash "list index out of range" := by
  constructor <;> decide

/-- Claim C2: tokenize coincides with the reference single-pass algorithm
of the spec on every input string, and the worked example of section 8
evaluates as stated. -/
theorem c2_tokenize_matches_reference :
    (∀ s : String, tokenize s = tokenizeSpec s)
    ∧ tokenize "echo \"a b\" c" = ["echo", "a b", "c"] := by
  constructor
  · intro s
    unfold tokenize tokenizeSpec
    simpa using tokenizeAux_eq_specAux s.data "" false []
  · decide

/-- Claim C3: exactly one substitution pass is performed. When the
lowercased head token is an alias key, the resolved token sequence is the
re-tokenization of the expansion joined with the remaining arguments
(first conjunct); with alias ll defined, invoking ll extra dispatches
identically to the fresh line ls -la extra for every registry and every
otherwise-arbitrary environment (second conjunct); an alias expanding to
another alias name is looked up as a literal command name and fails as
unknown (third conjunct). -/
theorem c3_alias_single_pass :
    (∀ (aliases : List (String × String)) (t0 exp : String) (args : List String),
        lookupAssoc aliases (pyLower t0) = some exp →
        resolvedTokens aliases (t0 :: args) = tokenize (exp ++ " " ++ joinSpace args))
    ∧ (∀ (invoke : Registry) (env : CCLIEnvironment),
        env.aliases = [("ll", "ls -la")] →
        execute invoke env "ll extra" = execute invoke env "ls -la extra")
    ∧ (∀ (invoke : Registry) (env : CCLIEnvironment),
        env.aliases = [("a", "b"), ("b", "echo hi")] →
        execute invoke env "a" =
          .ok [("Unknown command: b. Type 'help' for available commands.\n", "error")] none env) := by
  refine ⟨?_, ?_, ?_⟩
  · intro aliases t0 exp args h
    simp only [resolvedTokens, h]
  · intro invoke env h
    obtain ⟨v, cd, hist, al⟩ := env
    have h2 : al = [("ll", "ls -la")] := h
    subst h2
    rfl
  · intro invoke env h
    obtain ⟨v, cd, hist, al⟩ := env
    have h2 : al = [("a", "b"), ("b", "echo hi")] := h
    subst h2
    rfl

/-- Witness for C3 at concrete inputs. -/
theorem c3_alias_single_pass_witness :
    (resolvedTokens [("ll", "ls -la")] ["ll", "extra"] =
        tokenize ("ls -la" ++ " " ++ joinSpace ["extra"]))
    ∧ (execute invokeEcho { init_env "/" with aliases := [("ll", "ls -la")] } "ll extra" =
        execute invokeEcho { init_env "/" with aliases := [("ll", "ls -la")] } "ls -la extra")
    ∧ (execute invoke0 { init_env "/" with aliases := [("a", "b"), ("b", "echo hi")] } "a" =
        .ok [("Unknown command: b. Type 'help' for available commands.\n", "error")] none
          { init_env "/" with aliases := [("a", "b"), ("b", "echo hi")] }) :=
  ⟨c3_alias_single_pass.1 [("ll", "ls -la")] "ll" "ls -la" ["extra"] (by decide),
   c3_alias_single_pass.2.1 invokeEcho { init_env "/" with aliases := [("ll", "ls -la")] } rfl,
   c3_alias_single_pass.2.2 invoke0 { init_env "/" with aliases := [("a", "b"), ("b", "echo hi")] } rfl⟩

/-- Claim C4 counterexample: the claim states that the alias branch is
taken iff the original-case head token is a key of the alias table. With
the alias stored under the raw key LL, the raw head token LL is a key
(first conjunct) and yet the dispatcher does not resolve it: it reports
unknown command ll, because the lookup uses the lowercased head (second
conjunct). -/
theorem c4_counterexample :
    lookupAssoc ({ init_env "/" with aliases := [("LL", "echo hi")] } : CCLIEnvironment).aliases "LL"
        = some "echo hi"
    ∧ execute invokeEcho { init_env "/" with aliases := [("LL", "echo hi")] } "LL" =
        .ok [("Unknown command: ll. Type 'help' for available commands.\n", "error")] none
          { init_env "/" with aliases := [("LL", "echo hi")] } := by
  constructor <;> decide

/-- Claim C4 as amended: alias lookup uses the lowercased head token, the
same value used for command lookup. A miss of the lowercased head leaves
the tokens unchanged (first conjunct); an alias stored under an uppercase
key is never matched, even by the literally identical input (second
conjunct); a lowercase key is matched by an uppercase head (third
conjunct). -/
theorem c4_amended :
    (∀ (aliases : List (String × String)) (t0 : String) (args : List String),
        lookupAssoc aliases (pyLower t0) = none →
        resolvedTokens aliases (t0 :: args) = t0 :: args)
    ∧ (∀ (invoke : Registry) (env : CCLIEnvironment),
        env.aliases = [("LL", "echo hi")] →
        execute invoke env "LL" =
          .ok [("Unknown command: ll. Type 'help' for available commands.\n", "error")] none env)
    ∧ (∀ (invoke : Registry) (env : CCLIEnvironment),
        env.aliases = [("ll", "echo hi")] →
        execute invoke env "LL" = execute invoke env "echo hi") := by
  refine ⟨?_, ?_, ?_⟩
  · intro aliases t0 args h
    simp only [resolvedTokens, h]
  · intro invoke env h
    obtain ⟨v, cd, hist, al⟩ := env
    have h2 : al = [("LL", "echo hi")] := h
    subst h2
    rfl
  · intro invoke env h
    obtain ⟨v, cd, hist, al⟩ := env
    have h2 : al = [("ll", "echo hi")] := h
    subst h2
    rfl

/-- Witness for C4 amended at concrete inputs. -/
theorem c4_amended_witness :
    (resolvedTokens [("ll", "echo hi")] ["LS", "x"] = ["LS", "x"])
    ∧ (execute invoke0 { init_env "/" with aliases := [("LL", "echo hi")] } "LL" =
        .ok [("Unknown command: ll. Type 'help' for available commands.\n", "error")] none
          { init_env "/" with aliases := [("LL", "echo hi")] })
    ∧ (execute invokeEcho { init_env "/" with aliases := [("ll", "echo hi")] } "LL" =
        execute invokeEcho { init_env "/" with aliases := [("ll", "echo hi")] } "echo hi") :=
  ⟨c4_amended.1 [("ll", "echo hi")] "LS" ["x"] (by decide),
   c4_amended.2.1 invoke0 { init_env "/" with aliases := [("LL", "echo hi")] } rfl,
   c4_amended.2.2 invokeEcho { init_env "/" with aliases := [("ll", "echo hi")] } rfl⟩

/-- Claim C5 counterexample: for the head token FOO the emitted diagnostic
names the lowercased form foo; it does not contain the literal head token,
since no uppercase F occurs in the emitted line. -/
theorem c5_counterexample :
    execute invoke0 (init_env "/") "FOO" =
      .ok [("Unknown command: foo. Type 'help' for available commands.\n", "error")] none (init_env "/")
    ∧ 'F' ∉ ("Unknown command: foo. Type 'help' for available commands.\n" : String).data := by
  constructor <;> decide

/-- Claim C5 as amended: when the resolved head token, lowercased, is not a
registered command name, execute emits exactly one error-tagged line
naming the lowercased head token, returns no signal, and leaves the
environment unchanged. -/
theorem c5_unknown_command (invoke : Registry) (env : CCLIEnvironment) (line t0 : String)
    (args : List String)
    (h0 : pystrip line ≠ "")
    (h1 : tokenize line ≠ [])
    (h2 : resolvedTokens env.aliases (tokenize line) = t0 :: args)
    (h3 : lookupAssoc command_map (pyLower t0) = none) :
    execute invoke env line =
      .ok [("Unknown command: " ++ pyLower t0 ++ ". Type 'help' for available commands.\n", "error")]
        none env := by
  unfold execute
  rw [if_neg h0, if_neg h1]
  simp only [h2]
  unfold dispatch
  simp only [h3]

/-- Witness for C5 amended at a concrete input. -/
theorem c5_unknown_command_witness :
    execute invoke0 (init_env "/") "FOO" =
      .ok [("Unknown command: " ++ pyLower "FOO" ++ ". Type 'help' for available commands.\n", "error")]
        none (init_env "/") :=
  c5_unknown_command invoke0 (init_env "/") "FOO" "FOO" []
    (by decide) (by decide) (by decide) (by decide)

/-- Claim C6: a registered command whose invocation raises is caught by the
dispatcher, which appends exactly one error-tagged line carrying the fault
message to whatever the command emitted before raising, and returns
normally with no signal, for every fault. -/
theorem c6_fault_containment (invoke : Registry) (env : CCLIEnvironment)
    (line t0 fname m : String) (args : List String)
    (out : List (String × String)) (env2 : CCLIEnvironment)
    (h0 : pystrip line ≠ "")
    (h1 : tokenize line ≠ [])
    (h2 : resolvedTokens env.aliases (tokenize line) = t0 :: args)
    (h3 : lookupAssoc command_map (pyLower t0) = some fname)
    (h4 : invoke fname args env = .exn out m env2) :
    execute invoke env line = .ok (out ++ [("Error: " ++ m ++ "\n", "error")]) none env2 := by
  unfold execute
  rw [if_neg h0, if_neg h1]
  simp only [h2]
  unfold dispatch
  simp only [h3, h4]

/-- Witness for C6 with a registry that raises on every invocation. -/
theorem c6_fault_containment_witness :
    execute invokeBoom (init_env "/") "echo hi" =
      .ok ([] ++ [("Error: " ++ "boom" ++ "\n", "error")]) none (init_env "/") :=
  c6_fault_containment invokeBoom (init_env "/") "echo hi" "echo" "echo" "boom" ["hi"] []
    (init_env "/") (by decide) (by decide) (by decide) (by decide) (by decide)

/-- Claim C7 counterexample: the presentation layer strips the typed line
before appending it to history, so after submitting a line with leading and
trailing spaces the stored entry is the stripped form, not the exact typed
string. -/
theorem c7_counterexample :
    (handle_command invokeEcho (init_env "/") " echo hi ").env.command_history = ["echo hi"]
    ∧ (" echo hi " : String) ≠ "echo hi" := by
  constructor <;> decide

/-- Claim C7 as amended: for every submitted line that is non-empty after
stripping and is not the exit, clear, cls or last special form, and every
registry whose commands leave the history untouched, the appended history
entry is exactly the whitespace-stripped typed line, independent of the
alias table: aliasing never rewrites the stored entry. -/
theorem c7_history_stripped_entry (invoke : Registry) (env : CCLIEnvironment) (typed : String)
    (hinv : ∀ f a e, (cmdResultEnv (invoke f a e)).command_history = e.command_history)
    (h1 : pystrip typed ≠ "")
    (h2 : pyLower (pystrip typed) ≠ "exit")
    (h3 : pyLower (pystrip typed) ≠ "clear")
    (h4 : pyLower (pystrip typed) ≠ "cls")
    (h5 : pyLower (pystrip typed) ≠ "last") :
    (handle_command invoke env typed).env.command_history
      = env.command_history ++ [pystrip typed] := by
  unfold handle_command
  have hcc : ¬(pyLower (pystrip typed) = "clear" ∨ pyLower (pystrip typed) = "cls") := by
    rintro (h | h)
    exacts [h3 h, h4 h]
  rw [if_neg h1, if_neg h2, if_neg hcc]
  unfold runCommand
  rw [if_neg h5]
  unfold afterHistory
  cases hE : execute invoke (add_to_history env (pystrip typed)) (pystrip typed) with
  | ok out2 r env2 =>
    have hh := execute_ok_history invoke hinv (add_to_history env (pystrip typed))
      (pystrip typed) out2 r env2 hE
    by_cases hr : r = some "CLEAR" <;>
      simp [hr, hh, add_to_history]
  | crash m =>
    simp [add_to_history]

/-- Witness for C7 amended at a concrete input. -/
theorem c7_history_stripped_entry_witness :
    (handle_command invoke0 (init_env "/") " echo hi ").env.command_history
      = (init_env "/").command_history ++ [pystrip " echo hi "] :=
  c7_history_stripped_entry invoke0 (init_env "/") " echo hi " (fun _ _ _ => rfl)
    (by decide) (by decide) (by decide) (by decide) (by decide)

/-- Claim C8: every token produced by tokenize is non-empty and contains no
literal quote character. -/
theorem c8_tokens_nonempty_quotefree (s t : String) (ht : t ∈ tokenize s) :
    t ≠ "" ∧ '"' ∉ t.data :=
  tokenizeAux_sound s.data "" false []
    (by intro u hu; exact absurd hu (List.not_mem_nil u)) (by decide) t ht

/-- Witness for C8 at a concrete input. -/
theorem c8_tokens_nonempty_quotefree_witness :
    ("a b" ∈ tokenize "echo \"a b\"") ∧ ("a b" ≠ "" ∧ '"' ∉ ("a b" : String).data) :=
  ⟨by decide, c8_tokens_nonempty_quotefree "echo \"a b\"" "a b" (by decide)⟩

/-- Claim C9 counterexample: a tab character is whitespace but is not a
token separator, so a whitespace-only input tokenizes to a non-empty
sequence (first conjunct); and a line made only of a quoted space makes
execute emit an unknown-command diagnostic, so such a line is not silent
(second conjunct). -/
theorem c9_counterexample :
    tokenize "\t" = ["\t"]
    ∧ execute invoke0 (init_env "/") "\" \"" =
        .ok [("Unknown command:  . Type 'help' for available commands.\n", "error")] none
          (init_env "/") := by
  constructor <;> decide

/-- Claim C9 as amended: every input made only of spaces and quote
characters in which each space lies outside a quoted region tokenizes to
the empty sequence (first conjunct); execute on any line whose whitespace
strip is empty returns immediately with no output and no signal (second
conjunct); in particular the spaces-only example of the spec (third
conjunct). -/
theorem c9_blank_input :
    (∀ s : String, spacesOutsideQuotes s.data false = true → tokenize s = [])
    ∧ (∀ (invoke : Registry) (env : CCLIEnvironment) (line : String),
         pystrip line = "" → execute invoke env line = .ok [] none env)
    ∧ tokenize "   " = [] := by
  refine ⟨?_, ?_, by decide⟩
  · intro s h
    unfold tokenize
    exact tokenizeAux_spacesOutsideQuotes s.data false [] h
  · intro invoke env line h
    unfold execute
    rw [if_pos h]

/-- Witness for C9 amended at concrete inputs. -/
theorem c9_blank_input_witness :
    (spacesOutsideQuotes ("\"\" \"\"" : String).data false = true ∧ tokenize "\"\" \"\"" = [])
    ∧ (pystrip "\t " = "" ∧ execute invoke0 (init_env "/") "\t " = .ok [] none (init_env "/")) :=
  ⟨⟨by decide, c9_blank_input.1 "\"\" \"\"" (by decide)⟩,
   ⟨by decide, c9_blank_input.2.1 invoke0 (init_env "/") "\t " (by decide)⟩⟩

/-- Claim C10 counterexample: with an alias whose expansion carries an
unbalanced quote character, the quoted argument a b is rejoined and
re-tokenized inside a quoted region, so it is not split into multiple
tokens after resolution: the resolution keeps one argument token. -/
theorem c10_counterexample :
    tokenize "x \"a b\"" = ["x", "a b"]
    ∧ resolvedTokens [("x", "echo \"")] ["x", "a b"] = ["echo", " a b"] := by
  constructor <;> decide

/-- Claim C10 as amended: alias resolution does not preserve quoting. When
the expansion is quote-free, the resolved sequence is the tokens of the
expansion followed by each argument token re-split at its spaces, so an
argument that came from a quoted substring loses its grouping (first
conjunct); concretely the alias invocation splits a b into two tokens
(second conjunct) while invoking the expansion directly with the quoted
argument keeps it as one token (third conjunct). -/
theorem c10_alias_breaks_quoting :
    (∀ (aliases : List (String × String)) (t0 exp : String) (args : List String),
        lookupAssoc aliases (pyLower t0) = some exp →
        '"' ∉ exp.data →
        (∀ a ∈ args, '"' ∉ a.data) →
        resolvedTokens aliases (t0 :: args) = tokenize exp ++ (args.map tokenize).flatten)
    ∧ resolvedTokens [("x", "echo")] ["x", "a b"] = ["echo", "a", "b"]
    ∧ tokenize "echo \"a b\"" = ["echo", "a b"] := by
  refine ⟨?_, by decide, by decide⟩
  intro aliases t0 exp args hhit hq hargs
  simp only [resolvedTokens, hhit]
  rw [tokenize_append_space_quotefree exp (joinSpace args) hq,
    tokenize_joinSpace_quotefree args hargs]

/-- Witness for C10 amended at a concrete input. -/
theorem c10_alias_breaks_quoting_witness :
    resolvedTokens [("x", "echo")] ["x", "a b"] =
      tokenize "echo" ++ ((["a b"].map tokenize).flatten) :=
  c10_alias_breaks_quoting.1 [("x", "echo")] "x" "echo" ["a b"]
    (by decide) (by decide) (by decide)
